import Mathlib

/-!
Verification of the archive subsystem of the `focl` BGP route-collector
daemon against its natural-language specification.  The Rust source under
`src/archive/` is shallowly embedded: pure functions become Lean functions,
the SQLite replication queue becomes an explicit list-of-rows state, and the
stateful archive service becomes explicit state passing.  Machine integers
are modelled as `Nat`/`Int`, with two's-complement wrapping (the release
build's overflow semantics) made explicit where the source performs i64
arithmetic that can leave the representable range, and with `u32`
saturation made explicit where the source uses `saturating_add`.
External crates (`bgpkit-parser`, `chrono`, compression codecs, sqlite,
sha2) are not part of this repository: their entry points are either
modelled as parameters ("oracles") or, for `chrono`'s epoch-to-UTC
conversion, re-implemented from the standard proleptic-Gregorian civil
calendar algorithm so concrete layout paths can be evaluated.
-/

namespace Focl

/-- Two's-complement wrap of an integer into the i64 range
`[-2^63, 2^63)`, the behaviour of Rust release-build i64 arithmetic on
overflow. -/
def wrap64 (x : Int) : Int :=
  (x + 2 ^ 63) % 2 ^ 64 - 2 ^ 63

/-- Saturating successor on u32, the model of `u32::saturating_add(1)`
used by `ReplicationQueue::mark_failed` (src/archive/queue.rs line 157). -/
def satSucc32 (a : Nat) : Nat :=
  min (a + 1) (2 ^ 32 - 1)

/-! ## Layout (src/archive/layout.rs)

`aligned_epoch` computes `timestamp - timestamp.rem_euclid(interval)` in
i64 arithmetic.  `Int.emod` with a positive divisor is exactly Rust's
`rem_euclid`.  The final subtraction is i64 and can leave the i64 range
(only when `timestamp` is within `interval` of `i64::MIN`), so the model
wraps it. -/

/-- Model of `aligned_epoch` (src/archive/layout.rs lines 9-12).
`interval_secs` is a `u32` in the source, widened to i64 before use. -/
def aligned_epoch (timestamp : Int) (interval_secs : Nat) : Int :=
  wrap64 (timestamp - timestamp.emod (interval_secs : Int))


/-! ## UTC calendar conversion

The source converts the aligned epoch to UTC calendar fields with
`chrono::Utc.timestamp_opt(aligned, 0)` (src/archive/layout.rs lines
24-27).  `chrono` is an external crate; the conversion below is the
standard proleptic-Gregorian civil-from-days algorithm, which agrees with
chrono on every representable timestamp.  chrono's validity window
(roughly ±262000 years) is astronomically wider than any timestamp these
claims exercise, so the model keeps the conversion total. -/

/-- Convert a day count relative to 1970-01-01 to `(year, month, day)`
in the proleptic Gregorian calendar. -/
def civilFromDays (z0 : Int) : Int × Nat × Nat :=
  let z : Int := z0 + 719468
  let era : Int := (if 0 ≤ z then z else z - 146096) / 146097
  let doe : Nat := (z - era * 146097).toNat
  let yoe : Nat := (doe - doe / 1460 + doe / 36524 - doe / 146096) / 365
  let y : Int := (yoe : Int) + era * 400
  let doy : Nat := doe - (365 * yoe + yoe / 4 - yoe / 100)
  let mp : Nat := (5 * doy + 2) / 153
  let d : Nat := doy - (153 * mp + 2) / 5 + 1
  let m : Nat := if mp < 10 then mp + 3 else mp - 9
  (y + (if m ≤ 2 then 1 else 0), m, d)

/-- UTC calendar fields of an epoch timestamp: (year, month, day, hour,
minute).  Seconds are not used by the layout code. -/
def utcFields (t : Int) : Int × Nat × Nat × Nat × Nat :=
  let days : Int := t.fdiv 86400
  let sod : Nat := (t - days * 86400).toNat
  let c := civilFromDays days
  (c.1, c.2.1, c.2.2, sod / 3600, sod % 3600 / 60)


/-! ## Path rendering helpers

The source formats calendar fields with `format!("{:04}.{:02}", ..)` etc.
Zero-padded decimal rendering is modelled below. -/

/-- Render a natural number zero-padded to at least `width` digits,
the model of Rust's `{:0width}` formatting for non-negative values. -/
def padNat (width : Nat) (n : Nat) : String :=
  let s := toString n
  if s.length < width then String.mk (List.replicate (width - s.length) '0') ++ s
  else s


/-! ## Configuration (src/config/mod.rs)

Only the fields the archive layout and replicator consult are embedded. -/

/-- Model of `ArchiveStream` (src/archive/types.rs). -/
inductive ArchiveStream where
  | updates
  | ribs
deriving DecidableEq, Repr

/-- Model of `LayoutProfile` (src/config/mod.rs). -/
inductive LayoutProfile where
  | routeViews
  | ris
  | custom
deriving DecidableEq, Repr

/-- Model of `CompressionKind` (src/config/mod.rs). -/
inductive CompressionKind where
  | gzip
  | bzip2
  | zstd
deriving DecidableEq, Repr

/-- Model of `CompressionKind::extension` (src/config/mod.rs lines 319-325). -/
def CompressionKind.extension : CompressionKind → String
  | .gzip => "gz"
  | .bzip2 => "bz2"
  | .zstd => "zst"

/-- Model of `CustomLayoutTemplates` (src/config/mod.rs). -/
structure CustomLayoutTemplates where
  updates : String
  ribs : String
deriving DecidableEq, Repr

/-- The fields of `ArchiveConfig` (src/config/mod.rs lines 134-161) that the
embedded archive operations consult.  Filesystem roots are strings. -/
structure ArchiveConfig where
  enabled : Bool
  collector_id : String
  layout_profile : LayoutProfile
  updates_interval_secs : Nat
  ribs_interval_secs : Nat
  compression : CompressionKind
  root : String
  tmp_root : String
  fsync_on_rotate : Bool
  include_peer_state_records : Bool
  custom_templates : Option CustomLayoutTemplates
deriving DecidableEq, Repr

/-! ## Segment paths (src/archive/layout.rs lines 14-145)

Only `relative_path` is computed here; `final_path`/`tmp_path` just join the
configured roots onto it and are not needed by any claim.  Rust's
`template.contains(tok)` is modelled through `String.splitOn`, and
`Path::extension` for the custom profile through the last dot of the last
path component. -/

/-- True when the first list is an initial run of the second
(character-level helper for substring search). -/
def charsLead : List Char → List Char → Bool
  | [], _ => true
  | _ :: _, [] => false
  | a :: as, b :: bs => a = b && charsLead as bs

/-- True when `needle` occurs as a contiguous run inside `hay`. -/
def charsHasSub (needle : List Char) : List Char → Bool
  | [] => needle.isEmpty
  | c :: rest => charsLead needle (c :: rest) || charsHasSub needle rest

/-- True when `needle` occurs as a substring of `hay`: the model of
Rust's `str::contains` for a literal pattern. -/
def strContains (hay needle : String) : Bool :=
  charsHasSub needle.toList hay.toList

/-- Split a character list at every `/`. -/
def splitCharsOnSlash : List Char → List (List Char)
  | [] => [[]]
  | c :: rest =>
    if c = '/' then [] :: splitCharsOnSlash rest
    else
      match splitCharsOnSlash rest with
      | [] => [[c]]
      | h :: t => (c :: h) :: t

/-- Split a path string into its `/`-separated components. -/
def splitOnSlash (s : String) : List String :=
  (splitCharsOnSlash s.toList).map String.mk

/-- Model of `Path::extension().is_none()` on a rendered relative path:
the final path component has no extension when it contains no dot beyond
a possible leading dot. -/
def hasExtension (path : String) : Bool :=
  match (splitOnSlash path).getLast? with
  | none => false
  | some file =>
    match file.toList with
    | [] => false
    | _ :: rest => rest.contains '.'

/-- Model of `build_custom_relative_path`
(src/archive/layout.rs lines 102-145). -/
def build_custom_relative_path (template collector : String) (year : Int)
    (month day hour minute : Nat) (ext : String) : Except String String :=
  if ¬ (strContains template "{collector}" ∧ strContains template "{yyyymmdd}"
        ∧ strContains template "{hhmm}") then
    .error "custom template must contain collector, yyyymmdd, and hhmm tokens"
  else
    let yyyymmdd := padNat 4 year.toNat ++ padNat 2 month ++ padNat 2 day
    let hhmm := padNat 2 hour ++ padNat 2 minute
    let rendered :=
      ((((((template.replace "{collector}" collector).replace
        "{yyyy}" (padNat 4 year.toNat)).replace
        "{mm}" (padNat 2 month)).replace
        "{dd}" (padNat 2 day)).replace
        "{yyyymmdd}" yyyymmdd).replace
        "{hhmm}" hhmm).replace "{ext}" ext
    if hasExtension rendered then .ok rendered
    else .ok (rendered ++ "." ++ ext)

/-- Model of the `relative_path` computed by `segment_paths`
(src/archive/layout.rs lines 14-100).  The `chrono` range check
(`timestamp_opt(..).single()`) cannot fail for any timestamp reachable in
these claims and is kept total via `utcFields`. -/
def segment_paths_relative (cfg : ArchiveConfig) (stream : ArchiveStream)
    (timestamp : Int) : Except String String :=
  let aligned := match stream with
    | .updates => aligned_epoch timestamp cfg.updates_interval_secs
    | .ribs => aligned_epoch timestamp cfg.ribs_interval_secs
  let f := utcFields aligned
  let year := f.1
  let month := f.2.1
  let day := f.2.2.1
  let hour := f.2.2.2.1
  let minute := f.2.2.2.2
  let year_month := padNat 4 year.toNat ++ "." ++ padNat 2 month
  let yyyymmdd := padNat 4 year.toNat ++ padNat 2 month ++ padNat 2 day
  let hhmm := padNat 2 hour ++ padNat 2 minute
  let ext := cfg.compression.extension
  match cfg.layout_profile with
  | .routeViews =>
    match stream with
    | .updates => .ok (cfg.collector_id ++ "/" ++ year_month ++ "/UPDATES/updates."
        ++ yyyymmdd ++ "." ++ hhmm ++ "." ++ ext)
    | .ribs => .ok (cfg.collector_id ++ "/" ++ year_month ++ "/RIBS/rib."
        ++ yyyymmdd ++ "." ++ hhmm ++ "." ++ ext)
  | .ris =>
    match stream with
    | .updates => .ok (cfg.collector_id ++ "/" ++ year_month ++ "/updates."
        ++ yyyymmdd ++ "." ++ hhmm ++ "." ++ ext)
    | .ribs => .ok (cfg.collector_id ++ "/" ++ year_month ++ "/bview."
        ++ yyyymmdd ++ "." ++ hhmm ++ "." ++ ext)
  | .custom =>
    match cfg.custom_templates with
    | none => .error "custom layout profile requires archive.custom_templates"
    | some templates =>
      let template := match stream with
        | .updates => templates.updates
        | .ribs => templates.ribs
      build_custom_relative_path template cfg.collector_id year month day hour minute ext

/-- Model of `SegmentPaths` (src/archive/types.rs lines 24-29); paths are
strings. -/
structure SegmentPaths where
  tmp_path : String
  final_path : String
  relative_path : String
deriving DecidableEq, Repr

/-- Model of the tmp/final path assembly of `segment_paths`
(src/archive/layout.rs lines 77-99): the temporary file keeps the
relative directory, and its name is the final file name with leading dots
stripped, prefixed `.` and suffixed `.tmp`. -/
def segment_paths (cfg : ArchiveConfig) (stream : ArchiveStream)
    (timestamp : Int) : Except String SegmentPaths := do
  let rel ← segment_paths_relative cfg stream timestamp
  let parts := splitOnSlash rel
  match parts.getLast? with
  | none => .error "cannot derive temporary file name for archive segment"
  | some file_name =>
    if file_name = "" then
      .error "cannot derive temporary file name for archive segment"
    else
      let stem := String.mk (file_name.toList.dropWhile (fun c => c = '.'))
      let tmp_file := "." ++ stem ++ ".tmp"
      let tmp_rel := String.intercalate "/" (parts.dropLast ++ [tmp_file])
      .ok { tmp_path := cfg.tmp_root ++ "/" ++ tmp_rel
            final_path := cfg.root ++ "/" ++ rel
            relative_path := rel }

/-- The configuration claim C9 exercises: routeviews profile, collector
`focl01`, 900-second updates interval, gzip compression. -/
def routeviewsCfg : ArchiveConfig :=
  { enabled := true
    collector_id := "focl01"
    layout_profile := .routeViews
    updates_interval_secs := 900
    ribs_interval_secs := 7200
    compression := .gzip
    root := "/var/lib/focld/archive"
    tmp_root := "/var/lib/focld/archive/.tmp"
    fsync_on_rotate := true
    include_peer_state_records := true
    custom_templates := none }

/-! ## Replication queue (src/archive/queue.rs)

The queue is a SQLite table; it is embedded as an explicit list of rows.
Row ids are the `INTEGER PRIMARY KEY AUTOINCREMENT` column, so they are
pairwise distinct and rows are stored (and scanned by `ORDER BY id ASC`)
in insertion order; the model keeps the list in that order and assigns
each inserted row an id strictly greater than all existing ids.  Every
operation opens its own connection/transaction; DB-level I/O errors are
outside the model (each operation is given its success-path semantics). -/

/-- Model of the `status` column values. -/
inductive JobStatus where
  | pending
  | inProgress
  | failed
deriving DecidableEq, Repr

/-- One row of the `replication_queue` table
(src/archive/queue.rs lines 50-62). -/
structure QueueRow where
  id : Nat
  segment_path : String
  manifest_path : String
  destination_key : String
  attempts : Nat
  max_retries : Nat
  next_retry_ts : Int
  status : JobStatus
  last_error : Option String
  created_ts : Int
  updated_ts : Int
deriving DecidableEq, Repr

/-- Model of `ReplicationJob` (src/archive/queue.rs lines 13-21), the
snapshot returned by `claim_ready`. -/
structure ReplicationJob where
  id : Nat
  segment_path : String
  manifest_path : String
  destination_key : String
  attempts : Nat
  max_retries : Nat
deriving DecidableEq, Repr

/-- Model of `ReplicationQueue::init` (src/archive/queue.rs lines 46-68):
`CREATE TABLE IF NOT EXISTS` plus `CREATE INDEX IF NOT EXISTS` never
modify existing rows, so on the row state it is the identity. -/
def ReplicationQueue.init (rows : List QueueRow) : List QueueRow :=
  rows

/-- The id SQLite's AUTOINCREMENT assigns to the next inserted row:
strictly larger than every id ever used; the model takes max + 1. -/
def nextRowId (rows : List QueueRow) : Nat :=
  (rows.map QueueRow.id).foldr max 0 + 1

/-- Model of `ReplicationQueue::enqueue` (src/archive/queue.rs lines
70-97): insert a `pending` row with `attempts = 0` and
`next_retry_ts = now`. -/
def ReplicationQueue.enqueue (now : Int) (segment_path manifest_path
    destination_key : String) (max_retries : Nat) (rows : List QueueRow) :
    List QueueRow :=
  rows ++ [{ id := nextRowId rows
             segment_path := segment_path
             manifest_path := manifest_path
             destination_key := destination_key
             attempts := 0
             max_retries := max_retries
             next_retry_ts := now
             status := .pending
             last_error := none
             created_ts := now
             updated_ts := now }]

/-- The `WHERE status = 'pending' AND next_retry_ts <= ?` selection of
`claim_ready`. -/
def rowReady (now : Int) (r : QueueRow) : Bool :=
  r.status = JobStatus.pending ∧ r.next_retry_ts ≤ now

/-- The snapshot `claim_ready` returns for a selected row. -/
def QueueRow.toJob (r : QueueRow) : ReplicationJob :=
  { id := r.id
    segment_path := r.segment_path
    manifest_path := r.manifest_path
    destination_key := r.destination_key
    attempts := r.attempts
    max_retries := r.max_retries }

/-- Model of `ReplicationQueue::claim_ready` (src/archive/queue.rs lines
99-138): in one transaction, select up to `limit` rows with
`status = 'pending'` and `next_retry_ts <= now` ordered by id ascending,
set each selected row to `in_progress`, and return the selected
snapshots.  The row list is kept in ascending-id order (see above), so
the ordered scan is a filter followed by `take`. -/
def ReplicationQueue.claim_ready (now : Int) (limit : Nat)
    (rows : List QueueRow) : List ReplicationJob × List QueueRow :=
  let selected := ((rows.filter (rowReady now)).take limit)
  let claimedIds := selected.map QueueRow.id
  (selected.map QueueRow.toJob,
   rows.map fun r =>
     if claimedIds.contains r.id then
       { r with status := .inProgress, updated_ts := now }
     else r)

/-- Model of `ReplicationQueue::mark_success` (src/archive/queue.rs lines
140-147): delete the row. -/
def ReplicationQueue.mark_success (job_id : Nat) (rows : List QueueRow) :
    List QueueRow :=
  rows.filter fun r => r.id ≠ job_id

/-- Model of `ReplicationQueue::mark_failed` (src/archive/queue.rs lines
149-182).  `next_attempt` is `job.attempts.saturating_add(1)` on u32; the
exhaustion test and the updated columns use the claimed job's snapshot
fields.  `retry_backoff_secs` is a u64 cast with `as i64` and added to
`now` in i64 arithmetic, both made explicit. -/
def ReplicationQueue.mark_failed (now : Int) (job : ReplicationJob)
    (error : String) (retry_backoff_secs : Nat) (rows : List QueueRow) :
    List QueueRow :=
  let next_attempt := satSucc32 job.attempts
  let exhausted := 0 < job.max_retries ∧ job.max_retries ≤ next_attempt
  if exhausted then
    rows.map fun r =>
      if r.id = job.id then
        { r with attempts := next_attempt, status := .failed,
                 last_error := some error, updated_ts := now }
      else r
  else
    let next_retry := wrap64 (now + wrap64 retry_backoff_secs)
    rows.map fun r =>
      if r.id = job.id then
        { r with attempts := next_attempt, status := .pending,
                 next_retry_ts := next_retry, last_error := some error,
                 updated_ts := now }
      else r

/-- Model of `ReplicationQueue::pending_count`
(src/archive/queue.rs lines 184-192). -/
def ReplicationQueue.pending_count (rows : List QueueRow) : Nat :=
  (rows.filter fun r =>
    r.status = JobStatus.pending ∨ r.status = JobStatus.inProgress).length

/-- Model of `ReplicationQueue::failed_count`
(src/archive/queue.rs lines 194-202). -/
def ReplicationQueue.failed_count (rows : List QueueRow) : Nat :=
  (rows.filter fun r => r.status = JobStatus.failed).length

/-- Model of `ReplicationQueue::retry_failed`
(src/archive/queue.rs lines 204-216). -/
def ReplicationQueue.retry_failed (now : Int) (rows : List QueueRow) :
    List QueueRow :=
  rows.map fun r =>
    if r.status = JobStatus.failed then
      { r with status := .pending, next_retry_ts := now, updated_ts := now }
    else r

/-! ## Destinations and the replicator (src/config/mod.rs, src/archive/replicator.rs)

`Replicator::new` collects `cfg.destinations` into a
`HashMap<String, ArchiveDestinationConfig>` keyed by
`destination_key()`.  The map is embedded as an association list whose
keys are the destination keys; the HashMap invariant (one entry per key)
is carried as a `Nodup` hypothesis where needed. -/

/-- Model of `DestinationMode` (src/config/mod.rs). -/
inductive DestinationMode where
  | primary
  | asyncReplica
deriving DecidableEq, Repr

/-- Model of `DestinationType` (src/config/mod.rs). -/
inductive DestinationType where
  | local
  | s3
deriving DecidableEq, Repr

/-- The fields of `ArchiveDestinationConfig` (src/config/mod.rs lines
337-365) that `enqueue_segment` consults.  `max_retries()` returns
`max_retries.unwrap_or(0)` (lines 388-390). -/
structure ArchiveDestinationConfig where
  destination_type : DestinationType
  mode : DestinationMode
  max_retries : Option Nat
deriving DecidableEq, Repr

/-- Model of `ArchiveDestinationConfig::max_retries`
(src/config/mod.rs lines 388-390). -/
def ArchiveDestinationConfig.max_retries_or_default
    (d : ArchiveDestinationConfig) : Nat :=
  d.max_retries.getD 0

/-- Model of `FinalizedSegment` (src/archive/types.rs lines 31-42); paths
are strings. -/
structure FinalizedSegment where
  stream : ArchiveStream
  start_ts : Int
  end_ts : Int
  record_count : Nat
  bytes : Nat
  compression : CompressionKind
  final_path : String
  relative_path : String
  manifest_path : String
deriving DecidableEq, Repr

/-- Model of `Replicator::enqueue_segment` (src/archive/replicator.rs
lines 55-68): for every destination in the replicator's destination map
whose mode is `async_replica`, enqueue one job with the segment's final
path, its manifest path, the destination's key and its `max_retries()`;
destinations in any other mode are skipped.  `destinations` is the
key-to-config map as an association list. -/
def Replicator.enqueue_segment
    (destinations : List (String × ArchiveDestinationConfig)) (now : Int)
    (segment : FinalizedSegment) (rows : List QueueRow) : List QueueRow :=
  destinations.foldl
    (fun acc kd =>
      if kd.2.mode = DestinationMode.asyncReplica then
        ReplicationQueue.enqueue now segment.final_path segment.manifest_path
          kd.1 kd.2.max_retries_or_default acc
      else acc)
    rows

/-! ## BGP message parsing and MRT record encoding
(src/archive/snapshot.rs)

`parse_bgp_message` and `parse_attributes` belong to the external
`bgpkit-parser` crate, so they are parameters of the embedding: a parse
oracle maps the raw bytes (and the ASN length used) to either an error or
a parsed value.  `MrtMessage::encode` is also external and injective on
the structured data this repository builds, so MRT records are kept at
the structured level (`MrtRecord` below) rather than as wire bytes. -/

/-- IPv4 addresses as their 32-bit value; `0` is `Ipv4Addr::UNSPECIFIED`
(`0.0.0.0`). -/
abbrev Ipv4 := Nat

/-- Model of `bgpkit_parser::models::AsnLength`. -/
inductive AsnLength where
  | bits16
  | bits32
deriving DecidableEq, Repr

/-- The BGP message kinds distinguished by `parse_update_message`: all it
inspects is whether the parse succeeded and whether the result is an
UPDATE.  The payload of an UPDATE is kept abstract as bytes. -/
inductive BgpMessage where
  | update (payload : List Nat)
  | openMsg
  | notification
  | keepalive
deriving DecidableEq, Repr

/-- True exactly on `BgpMessage::Update`, the `matches!` test of
src/archive/snapshot.rs line 168. -/
def BgpMessage.isUpdate : BgpMessage → Bool
  | .update _ => true
  | _ => false

/-- A parse oracle standing for `bgpkit_parser::parser::bgp::parse_bgp_message`
applied at a given ASN length. -/
abbrev ParseOracle := AsnLength → List Nat → Except String BgpMessage

/-- An oracle standing for
`bgpkit_parser::parser::bgp::attributes::parse_attributes`; the parsed
attribute value itself is irrelevant to the claims and kept as bytes. -/
abbrev AttrOracle := List Nat → Except String (List Nat)

/-- Model of `UpdateRecordInput` (src/archive/types.rs lines 45-53). -/
structure UpdateRecordInput where
  timestamp : Int
  peer_asn : Nat
  local_asn : Nat
  interface_index : Nat
  peer_ip : Ipv4
  local_ip : Ipv4
  bgp_message : List Nat
deriving DecidableEq, Repr

/-- Model of `SnapshotPeer` (src/archive/types.rs lines 67-72); `peer_ip`
may be v4 or v6 in the source but only its identity matters here. -/
structure SnapshotPeer where
  peer_bgp_id : Ipv4
  peer_ip : Ipv4
  peer_asn : Nat
deriving DecidableEq, Repr

/-- Model of `SnapshotRoute` (src/archive/types.rs lines 74-82).  The
source field `prefix` is renamed `prefix_v4` (its name is reserved in
this development). -/
structure SnapshotRoute where
  sequence : Nat
  prefix_v4 : Ipv4
  prefix_len : Nat
  peer_index : Nat
  originated_time : Nat
  path_attributes : List Nat
deriving DecidableEq, Repr

/-- Model of `RibSnapshotInput` (src/archive/types.rs lines 84-91). -/
structure RibSnapshotInput where
  timestamp : Int
  collector_bgp_id : Ipv4
  view_name : String
  peers : List SnapshotPeer
  routes : List SnapshotRoute
deriving DecidableEq, Repr

/-- Model of `bgpkit_parser::models::Peer` as constructed by
`build_peer_index_table`. -/
structure Peer where
  peer_bgp_id : Ipv4
  peer_ip : Ipv4
  peer_asn : Nat
deriving DecidableEq, Repr

/-- Model of `bgpkit_parser::models::PeerIndexTable` as populated by
`build_peer_index_table`: the `id_peer_map` HashMap keyed by the u16 peer
index is an association list (all keys inserted are distinct, so inserts
never overwrite).  `peer_ip_id_map` is not consulted by any claim and is
omitted. -/
structure PeerIndexTable where
  collector_bgp_id : Ipv4
  view_name : String
  id_peer_map : List (Nat × Peer)
deriving DecidableEq, Repr

/-- `HashMap::contains_key` on the embedded `id_peer_map`. -/
def PeerIndexTable.containsKey (t : PeerIndexTable) (k : Nat) : Bool :=
  t.id_peer_map.any fun e => e.1 = k

/-- Model of `build_peer_index_table` (src/archive/snapshot.rs lines
131-157): fail when the peer count exceeds `u16::MAX`, otherwise map
each peer to its enumeration index. -/
def build_peer_index_table (s : RibSnapshotInput) :
    Except String PeerIndexTable :=
  if s.peers.length > 65535 then
    .error "peer count exceeds TABLE_DUMP_V2 limit"
  else
    .ok { collector_bgp_id := s.collector_bgp_id
          view_name := s.view_name
          id_peer_map := s.peers.enum.map fun ip =>
            (ip.1, { peer_bgp_id := ip.2.peer_bgp_id
                     peer_ip := ip.2.peer_ip
                     peer_asn := ip.2.peer_asn }) }

/-- Model of `bgpkit_parser::models::RibEntry` as built per route. -/
structure RibEntry where
  peer_index : Nat
  originated_time : Nat
  attributes : List Nat
deriving DecidableEq, Repr

/-- Model of `bgpkit_parser::models::RibAfiEntries` as built per route. -/
structure RibAfiEntries where
  sequence_number : Nat
  prefix_v4 : Ipv4
  prefix_len : Nat
  rib_entries : List RibEntry
deriving DecidableEq, Repr

/-- The structured MRT message payloads this repository encodes. -/
inductive MrtMessage where
  | peerIndexTable (t : PeerIndexTable)
  | ribAfi (r : RibAfiEntries)
  | bgp4mpMessageAs4 (peer_asn local_asn interface_index : Nat)
      (peer_ip local_ip : Ipv4) (bgp_message : BgpMessage)
  | bgp4mpStateChangeAs4 (peer_asn local_asn interface_index : Nat)
      (peer_ip local_ip : Ipv4) (old_state new_state : Nat)
deriving DecidableEq, Repr

/-- Model of `encode_mrt_message` (src/archive/snapshot.rs lines
178-199): an MRT common header (timestamp is `input.timestamp as u32`,
made explicit by the caller) over the structured payload. -/
structure MrtRecord where
  timestamp : Nat
  entry_type : Nat
  subtype : Nat
  message : MrtMessage
deriving DecidableEq, Repr

/-- Rust's `as u32` cast of an i64 timestamp. -/
def toU32 (t : Int) : Nat :=
  (t % 2 ^ 32).toNat

/-- Model of `encode_mrt_message` at the structured level. -/
def encode_mrt_message (timestamp : Nat) (entry_type subtype : Nat)
    (message : MrtMessage) : MrtRecord :=
  { timestamp := timestamp, entry_type := entry_type, subtype := subtype,
    message := message }

/-- MRT numeric constants used by the source: `EntryType::BGP4MP = 16`,
`EntryType::TABLE_DUMP_V2 = 13`, `Bgp4MpType::MessageAs4 = 4`,
`Bgp4MpType::StateChangeAs4 = 5`, `TableDumpV2Type::PeerIndexTable = 1`,
`TableDumpV2Type::RibIpv4Unicast = 2` (RFC 6396). -/
def ENTRY_BGP4MP : Nat := 16
def ENTRY_TABLE_DUMP_V2 : Nat := 13
def SUBTYPE_MESSAGE_AS4 : Nat := 4
def SUBTYPE_STATE_CHANGE_AS4 : Nat := 5
def SUBTYPE_PEER_INDEX_TABLE : Nat := 1
def SUBTYPE_RIB_IPV4_UNICAST : Nat := 2

/-- The `or_else` fallback inside `parse_update_message`
(src/archive/snapshot.rs lines 161-165): parse with 32-bit ASNs; only
when that fails, parse the same bytes again with 16-bit ASNs. -/
def parse_with_fallback (parse : ParseOracle) (raw : List Nat) :
    Except String BgpMessage :=
  match parse .bits32 raw with
  | .ok m => .ok m
  | .error _ => parse .bits16 raw

/-- Model of `parse_update_message` (src/archive/snapshot.rs lines
159-176): parse with the 16-bit fallback, then reject any successfully
parsed message that is not an UPDATE. -/
def parse_update_message (parse : ParseOracle) (raw : List Nat) :
    Except String BgpMessage :=
  match parse_with_fallback parse raw with
  | .error e => .error ("failed to parse BGP message: " ++ e)
  | .ok parsed =>
    if parsed.isUpdate then .ok parsed
    else .error "expected BGP UPDATE message payload"

/-- Model of `encode_bgp4mp_message_as4` (src/archive/snapshot.rs lines
17-37): parse the input's BGP message (UPDATE required) and frame it as a
BGP4MP MESSAGE_AS4 record. -/
def encode_bgp4mp_message_as4 (parse : ParseOracle)
    (input : UpdateRecordInput) : Except String MrtRecord := do
  let bgp_message ← parse_update_message parse input.bgp_message
  pure (encode_mrt_message (toU32 input.timestamp) ENTRY_BGP4MP
    SUBTYPE_MESSAGE_AS4
    (.bgp4mpMessageAs4 input.peer_asn input.local_asn input.interface_index
      input.peer_ip input.local_ip bgp_message))

/-- The per-route loop of `build_table_dump_v2` (src/archive/snapshot.rs
lines 78-126), in source order: reject a prefix length above 32, then a
peer index absent from the table, then parse the route's path attributes
(external, via the oracle), then emit one RIB_IPV4_UNICAST record. -/
def encodeRibRoutes (attrs : AttrOracle) (timestamp : Nat)
    (table : PeerIndexTable) : List SnapshotRoute →
    Except String (List MrtRecord)
  | [] => .ok []
  | route :: rest =>
    if route.prefix_len > 32 then
      .error "invalid IPv4 prefix length"
    else if ¬ table.containsKey route.peer_index then
      .error "route references unknown peer_index"
    else
      match attrs route.path_attributes with
      | .error e => .error ("failed parsing route attributes: " ++ e)
      | .ok attributes => do
        let tail ← encodeRibRoutes attrs timestamp table rest
        pure (encode_mrt_message timestamp ENTRY_TABLE_DUMP_V2
          SUBTYPE_RIB_IPV4_UNICAST
          (.ribAfi { sequence_number := route.sequence
                     prefix_v4 := route.prefix_v4
                     prefix_len := route.prefix_len
                     rib_entries := [{ peer_index := route.peer_index
                                       originated_time := route.originated_time
                                       attributes := attributes }] })
          :: tail)

/-- Model of `build_table_dump_v2` (src/archive/snapshot.rs lines
65-129): the peer-index-table record followed by one RIB record per
route, or the first error hit. -/
def build_table_dump_v2 (attrs : AttrOracle) (s : RibSnapshotInput) :
    Except String (List MrtRecord) := do
  let table ← build_peer_index_table s
  let ribs ← encodeRibRoutes attrs (toU32 s.timestamp) table s.routes
  pure (encode_mrt_message (toU32 s.timestamp) ENTRY_TABLE_DUMP_V2
    SUBTYPE_PEER_INDEX_TABLE (.peerIndexTable table) :: ribs)

/-! ## Segment writer and manifest (src/archive/writer.rs, src/archive/manifest.rs)

The compression encoder, the filesystem and SHA-256 are external: the
encoder is modelled as the list of record byte-chunks appended so far,
the result of each `encoder.write_all` call is an explicit
`Except String Unit` argument (the I/O outcome), and `finalize` receives
the finalized file's on-disk bytes (what `fs::metadata` and the hashing
read-back observe) plus a hash oracle standing for SHA-256. -/

/-- Model of `ArchiveStream::as_str` (src/archive/types.rs lines 16-21). -/
def ArchiveStream.as_str : ArchiveStream → String
  | .updates => "updates"
  | .ribs => "ribs"

/-- Model of the `SegmentWriter` state (src/archive/writer.rs lines
62-69).  `written` is the byte stream handed to the compression encoder,
as a list of chunks. -/
structure SegmentWriter where
  cfg : ArchiveConfig
  stream : ArchiveStream
  start_ts : Int
  paths : SegmentPaths
  written : List (List Nat)
  record_count : Nat

/-- Model of `SegmentWriter::new` (src/archive/writer.rs lines 71-114):
directory creation and tmp-file creation are filesystem effects; on the
writer state the constructor yields an empty stream with
`record_count = 0`. -/
def SegmentWriter.new (cfg : ArchiveConfig) (stream : ArchiveStream)
    (start_ts : Int) (paths : SegmentPaths) : SegmentWriter :=
  { cfg := cfg, stream := stream, start_ts := start_ts, paths := paths,
    written := [], record_count := 0 }

/-- Model of `SegmentWriter::write_record` (src/archive/writer.rs lines
116-120): append the raw bytes to the encoder; increment `record_count`
only if the append succeeded.  `io` is the outcome of
`encoder.write_all(record)`. -/
def SegmentWriter.write_record (w : SegmentWriter) (record : List Nat)
    (io : Except String Unit) : Except String SegmentWriter :=
  match io with
  | .error e => .error e
  | .ok _ => .ok { w with written := w.written ++ [record],
                          record_count := w.record_count + 1 }

/-- A sequence of `write_record` calls on one writer, each given its
record bytes and its I/O outcome.  A failed call returns its error to the
caller and leaves the writer unchanged; the caller may keep using the
writer, so the fold continues with the prior state. -/
def SegmentWriter.processWrites (w : SegmentWriter)
    (calls : List (List Nat × Except String Unit)) : SegmentWriter :=
  calls.foldl
    (fun acc c =>
      match acc.write_record c.1 c.2 with
      | .ok w2 => w2
      | .error _ => acc)
    w

/-- Model of `SegmentManifest` (src/archive/manifest.rs lines 13-25). -/
structure SegmentManifest where
  collector_id : String
  stream : String
  start_ts : Int
  end_ts : Int
  record_count : Nat
  bytes : Nat
  sha256 : String
  compression : CompressionKind
  layout_profile : LayoutProfile
  relative_path : String
deriving DecidableEq, Repr

/-- Model of `SegmentManifest::build` (src/archive/manifest.rs lines
29-58): `bytes` is the finalized file's size, `sha256` the hash of its
contents (`sha` is the SHA-256 oracle), and the remaining fields are
copied from the arguments. -/
def SegmentManifest.build (sha : List Nat → String) (collector_id : String)
    (stream : ArchiveStream) (start_ts end_ts : Int) (record_count : Nat)
    (compression : CompressionKind) (layout_profile : LayoutProfile)
    (file_bytes : List Nat) (relative_path : String) : SegmentManifest :=
  { collector_id := collector_id
    stream := stream.as_str
    start_ts := start_ts
    end_ts := end_ts
    record_count := record_count
    bytes := file_bytes.length
    sha256 := sha file_bytes
    compression := compression
    layout_profile := layout_profile
    relative_path := relative_path }

/-- Model of `SegmentWriter::finalize` (src/archive/writer.rs lines
134-174) on its success path: finish the compression stream, fsync,
rename tmp to final, build the manifest from the finalized file
(`file_bytes`: its on-disk contents), write the sidecar at
`final_path ++ ".json"`, and return the `FinalizedSegment`. -/
def SegmentWriter.finalize (sha : List Nat → String) (w : SegmentWriter)
    (end_ts : Int) (file_bytes : List Nat) :
    FinalizedSegment × SegmentManifest :=
  let manifest := SegmentManifest.build sha w.cfg.collector_id w.stream
    w.start_ts end_ts w.record_count w.cfg.compression
    w.cfg.layout_profile file_bytes w.paths.relative_path
  ({ stream := w.stream
     start_ts := w.start_ts
     end_ts := end_ts
     record_count := w.record_count
     bytes := manifest.bytes
     compression := w.cfg.compression
     final_path := w.paths.final_path
     relative_path := w.paths.relative_path
     manifest_path := w.paths.final_path ++ ".json" },
   manifest)

/-! ## Archive service (src/archive/mod.rs)

The service's updates-writer cell (`Mutex<Option<SegmentWriter>>`) is
explicit state.  The event channel, the replicator enqueue and all
filesystem effects of rotation do not touch that cell and are omitted
from its transition functions. -/

/-- Model of `ArchiveService::ensure_updates_writer` (src/archive/mod.rs
lines 298-333) as a transition on the updates-writer cell: when the cell
is empty or its writer's bucket differs from the bucket of `now_ts`, the
old writer (if any) is taken and finalized and a fresh writer for the new
bucket is installed; otherwise the cell is untouched.  On an error
(`segment_paths` failing) the old writer has already been taken, so the
cell is left empty. -/
def ensure_updates_writer (cfg : ArchiveConfig) (now_ts : Int)
    (cell : Option SegmentWriter) :
    Except String Unit × Option SegmentWriter :=
  let update_bucket := aligned_epoch now_ts cfg.updates_interval_secs
  let needs_rotate : Bool := match cell with
    | some w => w.start_ts != update_bucket
    | none => true
  if needs_rotate then
    match segment_paths cfg .updates now_ts with
    | .error e => (.error e, none)
    | .ok paths =>
      (.ok (), some (SegmentWriter.new cfg .updates update_bucket paths))
  else
    (.ok (), cell)

/-- Model of `ArchiveService::ingest_update` (src/archive/mod.rs lines
110-125): a no-op when disabled; otherwise ensure the updates writer
covers the update's bucket (rotating if needed), then encode the record
(failing with an encode error for a non-UPDATE message), then append it.
`parse` is the BGP parse oracle and `io` the outcome of the underlying
`write_record` append. -/
def ingest_update (cfg : ArchiveConfig) (parse : ParseOracle)
    (mrtBytes : MrtRecord → List Nat) (io : Except String Unit)
    (cell : Option SegmentWriter) (update : UpdateRecordInput) :
    Except String Unit × Option SegmentWriter :=
  if ¬ cfg.enabled then (.ok (), cell)
  else
    match ensure_updates_writer cfg update.timestamp cell with
    | (.error e, cell1) => (.error e, cell1)
    | (.ok _, cell1) =>
      match encode_bgp4mp_message_as4 parse update with
      | .error e => (.error e, cell1)
      | .ok record =>
        match cell1 with
        | none => (.error "updates writer not initialized", none)
        | some w =>
          match w.write_record (mrtBytes record) io with
          | .error e => (.error e, some w)
          | .ok w2 => (.ok (), some w2)

/-- The input normalization at the head of `ArchiveService::snapshot_now`
(src/archive/mod.rs lines 144-151): when the input's `collector_bgp_id`
is `0.0.0.0`, substitute the service's own collector BGP id; the
normalized input is what `build_table_dump_v2` then encodes. -/
def snapshot_now_effective_input (collector_bgp_id : Ipv4)
    (input : RibSnapshotInput) : RibSnapshotInput :=
  if input.collector_bgp_id = 0 then
    { input with collector_bgp_id := collector_bgp_id }
  else input

/-! ## Concrete sample inputs used by counterexamples and witnesses -/

/-- An attribute oracle that accepts every attribute byte string. -/
def attrsOk : AttrOracle := fun bs => .ok bs

/-- A parse oracle under which every byte string parses as a BGP OPEN
message (at either ASN length). -/
def parseAlwaysOpen : ParseOracle := fun _ _ => .ok .openMsg

/-- A parse oracle under which every byte string parses as a BGP UPDATE
with empty payload. -/
def parseAlwaysUpdate : ParseOracle := fun _ _ => .ok (.update [])

/-- A claimed job whose `attempts` counter sits at `u32::MAX`. -/
def jobAtMax : ReplicationJob :=
  { id := 1, segment_path := "seg.gz", manifest_path := "seg.gz.json",
    destination_key := "local:/replica", attempts := 2 ^ 32 - 1,
    max_retries := 0 }

/-- The queue row behind `jobAtMax`, claimed (`in_progress`). -/
def rowAtMax : QueueRow :=
  { id := 1, segment_path := "seg.gz", manifest_path := "seg.gz.json",
    destination_key := "local:/replica", attempts := 2 ^ 32 - 1,
    max_retries := 0, next_retry_ts := 0, status := .inProgress,
    last_error := none, created_ts := 0, updated_ts := 0 }

/-- A fresh claimed job used by witnesses. -/
def jobW : ReplicationJob :=
  { id := 7, segment_path := "seg.gz", manifest_path := "seg.gz.json",
    destination_key := "local:/replica", attempts := 0, max_retries := 3 }

/-- The queue row behind `jobW`, claimed (`in_progress`). -/
def rowW : QueueRow :=
  { id := 7, segment_path := "seg.gz", manifest_path := "seg.gz.json",
    destination_key := "local:/replica", attempts := 0, max_retries := 3,
    next_retry_ts := 0, status := .inProgress, last_error := none,
    created_ts := 0, updated_ts := 0 }

/-- A queue row that was claimed (`in_progress`) and then survived a
process restart; it is ready by timestamp. -/
def rowInProgress : QueueRow :=
  { id := 1, segment_path := "seg.gz", manifest_path := "seg.gz.json",
    destination_key := "local:/replica", attempts := 1, max_retries := 0,
    next_retry_ts := 0, status := .inProgress, last_error := none,
    created_ts := 0, updated_ts := 0 }

/-- A snapshot whose peer table exceeds the TABLE_DUMP_V2 u16 peer limit
(65536 peers) and which has no routes at all. -/
def bigPeersSnapshot : RibSnapshotInput :=
  { timestamp := 0, collector_bgp_id := 1, view_name := "main",
    peers := List.replicate 65536
      { peer_bgp_id := 1, peer_ip := 1, peer_asn := 1 },
    routes := [] }

/-- A snapshot with no peers and no routes (the scheduler's empty
snapshot). -/
def emptySnapshot : RibSnapshotInput :=
  { timestamp := 1700000000, collector_bgp_id := 3221225985,
    view_name := "main", peers := [], routes := [] }

/-- A snapshot with one peer and one route referencing a peer index that
is not in the peer table. -/
def badRouteSnapshot : RibSnapshotInput :=
  { timestamp := 1700000000, collector_bgp_id := 3221225985,
    view_name := "main",
    peers := [{ peer_bgp_id := 2, peer_ip := 2, peer_asn := 64512 }],
    routes := [{ sequence := 1, prefix_v4 := 3405803776, prefix_len := 24,
                 peer_index := 5, originated_time := 1700000000,
                 path_attributes := [] }] }

/-- A snapshot input whose `collector_bgp_id` is the unspecified address
`0.0.0.0`. -/
def zeroCollectorSnapshot : RibSnapshotInput :=
  { timestamp := 0, collector_bgp_id := 0, view_name := "main",
    peers := [], routes := [] }

/-- The segment paths of the open updates writer used in the C6
counterexample (bucket starting at epoch 0). -/
def pathsBucket0 : SegmentPaths :=
  { tmp_path := "/var/lib/focld/archive/.tmp/focl01/1970.01/UPDATES/.updates.19700101.0000.gz.tmp"
    final_path := "/var/lib/focld/archive/focl01/1970.01/UPDATES/updates.19700101.0000.gz"
    relative_path := "focl01/1970.01/UPDATES/updates.19700101.0000.gz" }

/-- An open updates writer for the bucket starting at epoch 0 that has
already recorded one successful `write_record` call. -/
def writerBucket0 : SegmentWriter :=
  { cfg := routeviewsCfg, stream := .updates, start_ts := 0,
    paths := pathsBucket0, written := [[0]], record_count := 1 }

/-- An ingest input whose timestamp (epoch 900) falls in the bucket after
`writerBucket0`, carrying a message that does not parse as an UPDATE. -/
def inputNextBucket : UpdateRecordInput :=
  { timestamp := 900, peer_asn := 64496, local_asn := 64497,
    interface_index := 0, peer_ip := 3325256705, local_ip := 3325256706,
    bgp_message := [255] }

/-- A trivial wire encoding oracle for structured MRT records (its output
never matters to the claims below). -/
def mrtBytesTrivial : MrtRecord → List Nat := fun _ => []

/-- A two-destination map: one async replica and one primary. -/
def destsW : List (String × ArchiveDestinationConfig) :=
  [("local:/replica", { destination_type := .local, mode := .asyncReplica,
                        max_retries := none }),
   ("local:/var/lib/focld/archive",
    { destination_type := .local, mode := .primary, max_retries := some 3 })]

/-- A finalized segment used by the C8 witness. -/
def segW : FinalizedSegment :=
  { stream := .updates, start_ts := 900, end_ts := 1800, record_count := 1,
    bytes := 64, compression := .gzip,
    final_path := "/var/lib/focld/archive/focl01/1970.01/UPDATES/updates.19700101.0015.gz",
    relative_path := "focl01/1970.01/UPDATES/updates.19700101.0015.gz",
    manifest_path := "/var/lib/focld/archive/focl01/1970.01/UPDATES/updates.19700101.0015.gz.json" }

/-! ## Supporting lemmas -/

theorem wrap64_eq_self {x : Int} (hlo : -(2 ^ 63) ≤ x) (hhi : x < 2 ^ 63) :
    wrap64 x = x := by
  unfold wrap64
  have h0 : (0 : Int) ≤ x + 2 ^ 63 := by linarith
  have h1 : x + 2 ^ 63 < 2 ^ 64 := by norm_num; linarith
  rw [Int.emod_eq_of_lt h0 h1]
  ring

theorem processWrites_record_count
    (calls : List (List Nat × Except String Unit)) (w : SegmentWriter) :
    (w.processWrites calls).record_count
      = w.record_count + calls.countP (fun c => c.2.isOk) := by
  induction calls generalizing w with
  | nil => simp [SegmentWriter.processWrites]
  | cons c cs ih =>
    obtain ⟨rec, io⟩ := c
    cases io with
    | error e =>
      simp only [SegmentWriter.processWrites, List.foldl_cons,
        SegmentWriter.write_record] at *
      rw [ih, List.countP_cons]
      simp [Except.isOk, Except.toBool]
    | ok u =>
      simp only [SegmentWriter.processWrites, List.foldl_cons,
        SegmentWriter.write_record] at *
      rw [ih, List.countP_cons]
      simp [Except.isOk, Except.toBool]
      omega

/-! ## Claim theorems -/

/-- Claim C1: the `record_count` stored in the `FinalizedSegment` and in
its manifest equals the number of successful `write_record` calls made on
the `SegmentWriter` since it was opened: each `write_record` increments
the counter exactly when the underlying append succeeds, and `finalize`
copies the counter unchanged into both the manifest and the returned
`FinalizedSegment`. -/
theorem record_count_eq_successful_writes
    (cfg : ArchiveConfig) (stream : ArchiveStream) (start_ts : Int)
    (paths : SegmentPaths) (calls : List (List Nat × Except String Unit))
    (sha : List Nat → String) (end_ts : Int) (file_bytes : List Nat) :
    ((SegmentWriter.new cfg stream start_ts paths).processWrites
        calls).record_count = calls.countP (fun c => c.2.isOk) ∧
    (((SegmentWriter.new cfg stream start_ts paths).processWrites
        calls).finalize sha end_ts file_bytes).1.record_count
      = calls.countP (fun c => c.2.isOk) ∧
    (((SegmentWriter.new cfg stream start_ts paths).processWrites
        calls).finalize sha end_ts file_bytes).2.record_count
      = calls.countP (fun c => c.2.isOk) := by
  have h := processWrites_record_count calls (SegmentWriter.new cfg stream start_ts paths)
  simp only [SegmentWriter.new] at h
  refine ⟨by simpa using h, ?_, ?_⟩ <;>
    simp [SegmentWriter.finalize, SegmentManifest.build] <;> simpa using h

/-- Claim C7, counterexample: at `t = i64::MIN` and interval 900 the i64
subtraction `t - t.rem_euclid(900)` underflows (the release build wraps
to `2^63 - 892`), so none of `aligned ≤ t`, `t < aligned + 900`,
`aligned mod 900 = 0` hold at that input even though `900 > 0`. -/
theorem aligned_epoch_underflows_at_i64_min :
    aligned_epoch (-(2 ^ 63)) 900 = 2 ^ 63 - 892 ∧
    ¬ (aligned_epoch (-(2 ^ 63)) 900 ≤ -(2 ^ 63) ∧
       -(2 ^ 63) < aligned_epoch (-(2 ^ 63)) 900 + 900 ∧
       aligned_epoch (-(2 ^ 63)) 900 % 900 = 0) := by
  constructor
  · decide
  · decide

/-- Claim C7, amended: for every i64 timestamp `t` and interval `i > 0`
such that the i64 subtraction `t - t.rem_euclid(i)` does not underflow
(equivalently `t.rem_euclid(i) ≤ t + 2^63`, which only fails within `i`
of `i64::MIN`), the aligned epoch satisfies
`aligned(t,i) ≤ t < aligned(t,i) + i` and `aligned(t,i) mod i = 0`,
computed with the Euclidean remainder. -/
theorem aligned_epoch_bounds (t : Int) (i : Nat) (hi : 0 < i)
    (hhi : t < 2 ^ 63) (hnu : t % (i : Int) ≤ t + 2 ^ 63) :
    aligned_epoch t i ≤ t ∧ t < aligned_epoch t i + (i : Int) ∧
      aligned_epoch t i % (i : Int) = 0 := by
  have hi' : (0 : Int) < (i : Int) := by exact_mod_cast hi
  have hr0 : 0 ≤ t % (i : Int) := Int.emod_nonneg t (ne_of_gt hi')
  have hri : t % (i : Int) < (i : Int) := Int.emod_lt_of_pos t hi'
  have hw : aligned_epoch t i = t - t % (i : Int) := by
    unfold aligned_epoch
    show wrap64 (t - t % (i : Int)) = t - t % (i : Int)
    exact wrap64_eq_self (by linarith) (by linarith)
  rw [hw]
  refine ⟨by linarith, by linarith, ?_⟩
  have hd : t - t % (i : Int) = (i : Int) * (t / (i : Int)) := by
    rw [Int.emod_def]; ring
  rw [hd, Int.mul_emod_right]

/-- Witness for `aligned_epoch_bounds` at `t = 1700000001`, `i = 900`. -/
theorem aligned_epoch_bounds_witness :
    aligned_epoch 1700000001 900 ≤ 1700000001 ∧
    (1700000001 : Int) < aligned_epoch 1700000001 900 + (900 : Int) ∧
    aligned_epoch 1700000001 900 % (900 : Int) = 0 :=
  aligned_epoch_bounds 1700000001 900 (by decide) (by decide) (by decide)

/-- Claim C3: the spec requires an `in_progress` row surviving a restart
to be claimable again, but `claim_ready` selects only `status = pending`
rows and `init` (run on queue re-initialization) never resets
`in_progress` rows, so a ready `in_progress` row is returned by no
subsequent `claim_ready` call: the code contradicts the specified
recovery behaviour. -/
theorem in_progress_row_not_reclaimed_after_restart :
    rowInProgress.status = JobStatus.inProgress ∧
    rowInProgress.next_retry_ts ≤ 100 ∧
    (ReplicationQueue.claim_ready 100 32
      (ReplicationQueue.init [rowInProgress])).1 = [] ∧
    (ReplicationQueue.claim_ready 100 32
      (ReplicationQueue.init [rowInProgress])).2 = [rowInProgress] := by
  refine ⟨rfl, by decide, ?_, ?_⟩ <;> rfl

set_option maxRecDepth 40000 in
/-- Claim C9: with the routeviews profile, collector `focl01`, updates
interval 900 s and gzip compression, the Updates relative path at epoch
1771681380 — which is 2026-02-21T13:43:00Z, as the first conjunct
records — is `focl01/2026.02/UPDATES/updates.20260221.1330.gz`. -/
theorem routeviews_relative_path_example :
    utcFields 1771681380 = (2026, 2, 21, 13, 43) ∧
    segment_paths_relative routeviewsCfg .updates 1771681380
      = .ok "focl01/2026.02/UPDATES/updates.20260221.1330.gz" := by
  constructor
  · decide
  · rfl

/-- Claim C2, counterexample: `mark_failed` computes the new attempt
count with `u32::saturating_add(1)`, so for a job whose `attempts` is
already `u32::MAX = 2^32 - 1` (here with `max_retries = 0`) the stored
value stays `2^32 - 1` while the claim requires `attempts + 1 = 2^32`. -/
theorem mark_failed_saturates_at_u32_max :
    jobAtMax.attempts = 2 ^ 32 - 1 ∧ jobAtMax.max_retries = 0 ∧
    (ReplicationQueue.mark_failed 100 jobAtMax "unreachable" 5
        [rowAtMax]).map QueueRow.attempts = [2 ^ 32 - 1] ∧
    (ReplicationQueue.mark_failed 100 jobAtMax "unreachable" 5
        [rowAtMax]).map QueueRow.attempts ≠ [jobAtMax.attempts + 1] := by
  refine ⟨rfl, rfl, by decide, by decide⟩

/-- Claim C2, amended: for every call `mark_failed(job, error, backoff)`
on a row with the claimed job's id, if `max_retries > 0` and
`attempts + 1 ≥ max_retries` the row becomes `failed`, otherwise it
becomes `pending` with `next_retry_ts = now + backoff` (in i64
arithmetic); in both branches `attempts` becomes
`min(attempts + 1, 2^32 - 1)` — the u32 saturating increment, which
equals `attempts + 1` except at `attempts = u32::MAX` — and `last_error`
becomes the given error.  In particular `max_retries = 0` never yields
`failed`. -/
theorem mark_failed_row_transition (now : Int) (job : ReplicationJob)
    (error : String) (backoff : Nat) (rows : List QueueRow) (r : QueueRow)
    (hmem : r ∈ rows) (hid : r.id = job.id)
    (hmr : job.max_retries < 2 ^ 32) :
    (if 0 < job.max_retries ∧ job.max_retries ≤ job.attempts + 1 then
      { r with attempts := satSucc32 job.attempts, status := .failed,
               last_error := some error, updated_ts := now }
        ∈ ReplicationQueue.mark_failed now job error backoff rows
    else
      { r with attempts := satSucc32 job.attempts, status := .pending,
               next_retry_ts := wrap64 (now + wrap64 backoff),
               last_error := some error, updated_ts := now }
        ∈ ReplicationQueue.mark_failed now job error backoff rows) ∧
    (job.max_retries = 0 →
      { r with attempts := satSucc32 job.attempts, status := .pending,
               next_retry_ts := wrap64 (now + wrap64 backoff),
               last_error := some error, updated_ts := now }
        ∈ ReplicationQueue.mark_failed now job error backoff rows) := by
  have hcond : (0 < job.max_retries ∧ job.max_retries ≤ satSucc32 job.attempts)
      ↔ (0 < job.max_retries ∧ job.max_retries ≤ job.attempts + 1) := by
    unfold satSucc32
    constructor
    · rintro ⟨h1, h2⟩
      exact ⟨h1, le_trans h2 (min_le_left _ _)⟩
    · rintro ⟨h1, h2⟩
      exact ⟨h1, le_min h2 (by omega)⟩
  constructor
  · by_cases hc : 0 < job.max_retries ∧ job.max_retries ≤ job.attempts + 1
    · rw [if_pos hc]
      unfold ReplicationQueue.mark_failed
      rw [if_pos (hcond.mpr hc)]
      have := List.mem_map_of_mem
        (fun r0 => if r0.id = job.id then
          { r0 with attempts := satSucc32 job.attempts, status := JobStatus.failed,
                    last_error := some error, updated_ts := now }
         else r0) hmem
      simpa [hid] using this
    · rw [if_neg hc]
      unfold ReplicationQueue.mark_failed
      rw [if_neg (fun h => hc (hcond.mp h))]
      have := List.mem_map_of_mem
        (fun r0 => if r0.id = job.id then
          { r0 with attempts := satSucc32 job.attempts, status := JobStatus.pending,
                    next_retry_ts := wrap64 (now + wrap64 backoff),
                    last_error := some error, updated_ts := now }
         else r0) hmem
      simpa [hid] using this
  · intro h0
    unfold ReplicationQueue.mark_failed
    rw [if_neg (by simp [h0])]
    have := List.mem_map_of_mem
      (fun r0 => if r0.id = job.id then
        { r0 with attempts := satSucc32 job.attempts, status := JobStatus.pending,
                  next_retry_ts := wrap64 (now + wrap64 backoff),
                  last_error := some error, updated_ts := now }
       else r0) hmem
    simpa [hid] using this

/-- Witness for `mark_failed_row_transition`: a first failure of a job
with `max_retries = 3` leaves the row pending with one attempt. -/
theorem mark_failed_row_transition_witness :
    (if 0 < jobW.max_retries ∧ jobW.max_retries ≤ jobW.attempts + 1 then
      { rowW with attempts := satSucc32 jobW.attempts, status := .failed,
                  last_error := some "unreachable", updated_ts := 10 }
        ∈ ReplicationQueue.mark_failed 10 jobW "unreachable" 5 [rowW]
    else
      { rowW with attempts := satSucc32 jobW.attempts, status := .pending,
                  next_retry_ts := wrap64 (10 + wrap64 5),
                  last_error := some "unreachable", updated_ts := 10 }
        ∈ ReplicationQueue.mark_failed 10 jobW "unreachable" 5 [rowW]) ∧
    (jobW.max_retries = 0 →
      { rowW with attempts := satSucc32 jobW.attempts, status := .pending,
                  next_retry_ts := wrap64 (10 + wrap64 5),
                  last_error := some "unreachable", updated_ts := 10 }
        ∈ ReplicationQueue.mark_failed 10 jobW "unreachable" 5 [rowW]) :=
  mark_failed_row_transition 10 jobW "unreachable" 5 [rowW] rowW
    (by decide) (by decide) (by decide)

theorem countP_enqueue_segment (now : Int) (seg : FinalizedSegment)
    (k : String) (dests : List (String × ArchiveDestinationConfig))
    (rows : List QueueRow) :
    (Replicator.enqueue_segment dests now seg rows).countP
        (fun r => decide (r.destination_key = k ∧ r.status = JobStatus.pending))
      = rows.countP
          (fun r => decide (r.destination_key = k ∧ r.status = JobStatus.pending))
        + dests.countP
            (fun kd => decide (kd.1 = k ∧ kd.2.mode = DestinationMode.asyncReplica)) := by
  induction dests generalizing rows with
  | nil => simp [Replicator.enqueue_segment]
  | cons kd rest ih =>
    simp only [Replicator.enqueue_segment, List.foldl_cons] at ih ⊢
    rw [List.countP_cons]
    by_cases hmode : kd.2.mode = DestinationMode.asyncReplica
    · rw [if_pos hmode, ih, ReplicationQueue.enqueue, List.countP_append]
      by_cases hk : kd.1 = k
      · simp [hk, hmode]
        omega
      · simp [hk]
    · rw [if_neg hmode, ih]
      simp [hmode]

theorem mem_enqueue_segment (now : Int) (seg : FinalizedSegment)
    (dests : List (String × ArchiveDestinationConfig))
    (rows : List QueueRow) :
    ∀ r ∈ Replicator.enqueue_segment dests now seg rows,
      r ∈ rows ∨ (r.status = JobStatus.pending
        ∧ r.segment_path = seg.final_path
        ∧ r.manifest_path = seg.manifest_path ∧ r.attempts = 0) := by
  induction dests generalizing rows with
  | nil =>
    intro r hr
    exact Or.inl hr
  | cons kd rest ih =>
    intro r hr
    simp only [Replicator.enqueue_segment, List.foldl_cons] at hr
    by_cases hmode : kd.2.mode = DestinationMode.asyncReplica
    · rw [if_pos hmode] at hr
      rcases ih _ r hr with hmem | hp
      · unfold ReplicationQueue.enqueue at hmem
        rcases List.mem_append.mp hmem with h | h
        · exact Or.inl h
        · right
          rcases List.mem_singleton.mp h with rfl
          exact ⟨rfl, rfl, rfl, rfl⟩
      · exact Or.inr hp
    · rw [if_neg hmode] at hr
      exact ih rows r hr

theorem countP_key_zero_of_not_mem (k : String)
    (dests : List (String × ArchiveDestinationConfig))
    (hk : k ∉ dests.map Prod.fst) :
    dests.countP
        (fun kd => decide (kd.1 = k ∧ kd.2.mode = DestinationMode.asyncReplica))
      = 0 := by
  refine List.countP_eq_zero.mpr fun kd hkd hp => ?_
  simp only [decide_eq_true_eq] at hp
  exact hk (hp.1 ▸ List.mem_map_of_mem Prod.fst hkd)

theorem countP_key_of_nodup (k : String) (d : ArchiveDestinationConfig)
    (dests : List (String × ArchiveDestinationConfig))
    (hnd : (dests.map Prod.fst).Nodup) (hmem : (k, d) ∈ dests) :
    dests.countP
        (fun kd => decide (kd.1 = k ∧ kd.2.mode = DestinationMode.asyncReplica))
      = if d.mode = DestinationMode.asyncReplica then 1 else 0 := by
  induction dests with
  | nil => cases hmem
  | cons kd rest ih =>
    rw [List.countP_cons]
    simp only [List.map_cons, List.nodup_cons] at hnd
    rcases List.mem_cons.mp hmem with heq | hrest
    · have hkd : kd = (k, d) := heq.symm
      subst hkd
      rw [countP_key_zero_of_not_mem k rest hnd.1]
      by_cases hm : d.mode = DestinationMode.asyncReplica
      · simp [hm]
      · simp [hm]
    · have hk : ¬ kd.1 = k := by
        intro h
        exact hnd.1 (h ▸ List.mem_map_of_mem Prod.fst hrest)
      rw [ih hnd.2 hrest]
      simp [hk]

/-- Claim C8: `enqueue_segment` inserts, for a finalized segment, exactly
one new pending job keyed by each async-replica destination's
`destination_key` (the count of rows for that key and status pending
grows by one exactly when the destination's mode is `async_replica`, and
by zero when it is `primary`), and every inserted row is a pending job
carrying the segment's final path and manifest path.  The destination
map's keys are pairwise distinct (the `HashMap` invariant). -/
theorem enqueue_segment_one_job_per_async_destination
    (dests : List (String × ArchiveDestinationConfig)) (now : Int)
    (seg : FinalizedSegment) (rows : List QueueRow) (k : String)
    (d : ArchiveDestinationConfig)
    (hnd : (dests.map Prod.fst).Nodup) (hmem : (k, d) ∈ dests) :
    ((Replicator.enqueue_segment dests now seg rows).countP
        (fun r => decide (r.destination_key = k ∧ r.status = JobStatus.pending))
      = rows.countP
          (fun r => decide (r.destination_key = k ∧ r.status = JobStatus.pending))
        + (if d.mode = DestinationMode.asyncReplica then 1 else 0)) ∧
    (∀ r ∈ Replicator.enqueue_segment dests now seg rows,
      r ∈ rows ∨ (r.status = JobStatus.pending
        ∧ r.segment_path = seg.final_path
        ∧ r.manifest_path = seg.manifest_path ∧ r.attempts = 0)) := by
  refine ⟨?_, mem_enqueue_segment now seg dests rows⟩
  rw [countP_enqueue_segment, countP_key_of_nodup k d dests hnd hmem]

/-- Witness for `enqueue_segment_one_job_per_async_destination` on a
two-destination map (one async replica, one primary) and an empty
queue. -/
theorem enqueue_segment_one_job_per_async_destination_witness :
    ((Replicator.enqueue_segment destsW 1800 segW []).countP
        (fun r => decide (r.destination_key = "local:/replica"
          ∧ r.status = JobStatus.pending))
      = ([] : List QueueRow).countP
          (fun r => decide (r.destination_key = "local:/replica"
            ∧ r.status = JobStatus.pending))
        + (if ({ destination_type := .local, mode := .asyncReplica,
                 max_retries := none } : ArchiveDestinationConfig).mode
              = DestinationMode.asyncReplica then 1 else 0)) ∧
    (∀ r ∈ Replicator.enqueue_segment destsW 1800 segW [],
      r ∈ ([] : List QueueRow) ∨ (r.status = JobStatus.pending
        ∧ r.segment_path = segW.final_path
        ∧ r.manifest_path = segW.manifest_path ∧ r.attempts = 0)) :=
  enqueue_segment_one_job_per_async_destination destsW 1800 segW []
    "local:/replica"
    { destination_type := .local, mode := .asyncReplica, max_retries := none }
    (by decide) (by decide)

theorem containsKey_build_peer_index_table (s : RibSnapshotInput)
    {t : PeerIndexTable} (h : build_peer_index_table s = .ok t) (j : Nat) :
    (t.containsKey j = true) ↔ j < s.peers.length := by
  unfold build_peer_index_table at h
  by_cases hlen : s.peers.length > 65535
  · rw [if_pos hlen] at h
    cases h
  · rw [if_neg hlen] at h
    injection h with h
    subst h
    unfold PeerIndexTable.containsKey
    simp only [List.any_eq_true, List.mem_map, decide_eq_true_eq]
    constructor
    · rintro ⟨e, ⟨ip, hip, rfl⟩, hj⟩
      have : ip.1 ∈ s.peers.enum.map Prod.fst := List.mem_map_of_mem _ hip
      rw [List.enum_map_fst, List.mem_range] at this
      simpa [← hj] using this
    · intro hj
      have : j ∈ s.peers.enum.map Prod.fst := by
        rw [List.enum_map_fst, List.mem_range]
        exact hj
      rcases List.mem_map.mp this with ⟨ip, hip, hfst⟩
      exact ⟨_, ⟨ip, hip, rfl⟩, hfst⟩

theorem encodeRibRoutes_ok (attrs : AttrOracle) (ts : Nat)
    (t : PeerIndexTable) (routes : List SnapshotRoute)
    (h : ∀ r ∈ routes, t.containsKey r.peer_index = true
      ∧ r.prefix_len ≤ 32 ∧ (attrs r.path_attributes).isOk = true) :
    ∃ recs, encodeRibRoutes attrs ts t routes = .ok recs
      ∧ recs.length = routes.length
      ∧ ∀ rec ∈ recs, rec.entry_type = ENTRY_TABLE_DUMP_V2
          ∧ rec.subtype = SUBTYPE_RIB_IPV4_UNICAST := by
  induction routes with
  | nil => exact ⟨[], rfl, rfl, by simp⟩
  | cons r rest ih =>
    obtain ⟨hck, hpl, hattr⟩ := h r (List.mem_cons_self r rest)
    obtain ⟨recs, hrecs, hlen, hall⟩ :=
      ih fun r' hr' => h r' (List.mem_cons_of_mem r hr')
    unfold encodeRibRoutes
    rw [if_neg (by omega : ¬ r.prefix_len > 32)]
    rw [if_neg (by simp [hck])]
    cases hao : attrs r.path_attributes with
    | error e =>
      rw [hao] at hattr
      cases hattr
    | ok a =>
      refine ⟨encode_mrt_message ts ENTRY_TABLE_DUMP_V2
          SUBTYPE_RIB_IPV4_UNICAST
          (.ribAfi { sequence_number := r.sequence, prefix_v4 := r.prefix_v4,
                     prefix_len := r.prefix_len,
                     rib_entries := [{ peer_index := r.peer_index,
                                       originated_time := r.originated_time,
                                       attributes := a }] }) :: recs,
        ?_, by simp [hlen], ?_⟩
      · show (encodeRibRoutes attrs ts t rest).bind _ = _
        rw [hrecs]
        rfl
      · intro rec hrec
        rcases List.mem_cons.mp hrec with rfl | hmem
        · exact ⟨rfl, rfl⟩
        · exact hall rec hmem

theorem encodeRibRoutes_error (attrs : AttrOracle) (ts : Nat)
    (t : PeerIndexTable) (routes : List SnapshotRoute)
    (h : ∃ r ∈ routes, ¬ t.containsKey r.peer_index = true
      ∨ 32 < r.prefix_len) :
    (encodeRibRoutes attrs ts t routes).isOk = false := by
  induction routes with
  | nil =>
    rcases h with ⟨r, hr, _⟩
    cases hr
  | cons r rest ih =>
    unfold encodeRibRoutes
    by_cases h1 : r.prefix_len > 32
    · rw [if_pos h1]
      rfl
    · rw [if_neg h1]
      by_cases h2 : ¬ (t.containsKey r.peer_index = true)
      · rw [if_pos (by simpa using h2)]
        rfl
      · rw [if_neg (by simpa using h2)]
        rcases h with ⟨r', hr', hbad⟩
        rcases List.mem_cons.mp hr' with rfl | hmem
        · rcases hbad with hb | hb
          · exact absurd hb h2
          · omega
        · have htail := ih ⟨r', hmem, hbad⟩
          cases hattr : attrs r.path_attributes with
          | error e => rfl
          | ok a =>
            cases htl : encodeRibRoutes attrs ts t rest with
            | error e2 =>
              show ((Except.error e2 : Except String (List MrtRecord)).bind
                _).isOk = false
              rfl
            | ok recs =>
              rw [htl] at htail
              cases htail

/-- Claim C4, counterexample: a snapshot with 65536 peers and no routes
satisfies the claim's stated failure conditions vacuously (every route's
peer index is in the table and no prefix length exceeds 32), yet
`build_table_dump_v2` rejects it: `build_peer_index_table` fails once the
peer count exceeds the TABLE_DUMP_V2 u16 limit of 65535. -/
theorem build_table_dump_v2_rejects_peer_overflow :
    bigPeersSnapshot.routes = [] ∧
    bigPeersSnapshot.peers.length = 65536 ∧
    build_table_dump_v2 attrsOk bigPeersSnapshot
      = .error "peer count exceeds TABLE_DUMP_V2 limit" := by
  have hplen : bigPeersSnapshot.peers.length = 65536 := by
    rw [show bigPeersSnapshot.peers = List.replicate 65536
        { peer_bgp_id := 1, peer_ip := 1, peer_asn := 1 } from rfl,
      List.length_replicate]
  refine ⟨rfl, hplen, ?_⟩
  have herr : build_peer_index_table bigPeersSnapshot
      = .error "peer count exceeds TABLE_DUMP_V2 limit" := by
    unfold build_peer_index_table
    rw [if_pos (by omega)]
  unfold build_table_dump_v2
  rw [herr]
  rfl

/-- Claim C4, amended: provided the snapshot's peer count does not exceed
65535 and every route's path attributes parse, `build_table_dump_v2`
returns the PEER_INDEX_TABLE record followed by one RIB_IPV4_UNICAST
record per route (length `1 + |routes|`; an empty snapshot yields exactly
the single peer-index record) whenever every route's `peer_index` is in
the peer table and every `prefix_len` is at most 32; and it fails
whenever some route's `peer_index` is not in the peer table or some
route's `prefix_len` exceeds 32. -/
theorem build_table_dump_v2_shape (attrs : AttrOracle)
    (s : RibSnapshotInput) :
    (s.peers.length ≤ 65535 →
     (∀ r ∈ s.routes, r.peer_index < s.peers.length ∧ r.prefix_len ≤ 32
        ∧ (attrs r.path_attributes).isOk = true) →
     ∃ t recs, build_peer_index_table s = .ok t
       ∧ build_table_dump_v2 attrs s
           = .ok (encode_mrt_message (toU32 s.timestamp) ENTRY_TABLE_DUMP_V2
               SUBTYPE_PEER_INDEX_TABLE (.peerIndexTable t) :: recs)
       ∧ recs.length = s.routes.length
       ∧ ∀ rec ∈ recs, rec.entry_type = ENTRY_TABLE_DUMP_V2
           ∧ rec.subtype = SUBTYPE_RIB_IPV4_UNICAST) ∧
    ((∃ r ∈ s.routes, s.peers.length ≤ r.peer_index ∨ 32 < r.prefix_len) →
     (build_table_dump_v2 attrs s).isOk = false) := by
  constructor
  · intro hlen hroutes
    have ht : build_peer_index_table s
        = .ok { collector_bgp_id := s.collector_bgp_id
                view_name := s.view_name
                id_peer_map := s.peers.enum.map fun ip =>
                  (ip.1, { peer_bgp_id := ip.2.peer_bgp_id
                           peer_ip := ip.2.peer_ip
                           peer_asn := ip.2.peer_asn }) } := by
      unfold build_peer_index_table
      rw [if_neg (by omega)]
    obtain ⟨recs, hrecs, hrlen, hall⟩ :=
      encodeRibRoutes_ok attrs (toU32 s.timestamp) _ s.routes
        (fun r hr => ⟨(containsKey_build_peer_index_table s ht
            r.peer_index).mpr (hroutes r hr).1,
          (hroutes r hr).2.1, (hroutes r hr).2.2⟩)
    refine ⟨_, recs, ht, ?_, hrlen, hall⟩
    show (build_peer_index_table s).bind _ = _
    rw [ht]
    show (encodeRibRoutes attrs (toU32 s.timestamp) _ s.routes).bind _ = _
    rw [hrecs]
    rfl
  · intro hbad
    by_cases hlen : s.peers.length > 65535
    · have ht : build_peer_index_table s
          = .error "peer count exceeds TABLE_DUMP_V2 limit" := by
        unfold build_peer_index_table
        rw [if_pos hlen]
      show ((build_peer_index_table s).bind _).isOk = false
      rw [ht]
      rfl
    · have hex : ∃ t, build_peer_index_table s = .ok t := by
        unfold build_peer_index_table
        rw [if_neg hlen]
        exact ⟨_, rfl⟩
      obtain ⟨t, ht⟩ := hex
      have herr : (encodeRibRoutes attrs (toU32 s.timestamp) t s.routes).isOk
          = false := by
        refine encodeRibRoutes_error attrs (toU32 s.timestamp) t s.routes ?_
        rcases hbad with ⟨r, hr, hb⟩
        refine ⟨r, hr, ?_⟩
        rcases hb with hb | hb
        · exact Or.inl fun hc => by
            have := (containsKey_build_peer_index_table s ht
              r.peer_index).mp hc
            omega
        · exact Or.inr hb
      show ((build_peer_index_table s).bind _).isOk = false
      rw [ht]
      cases hre : encodeRibRoutes attrs (toU32 s.timestamp) t s.routes with
      | error e =>
        show ((encodeRibRoutes attrs (toU32 s.timestamp) t s.routes).bind
          _).isOk = false
        rw [hre]
        rfl
      | ok recs =>
        rw [hre] at herr
        cases herr

/-- Witness for `build_table_dump_v2_shape`: the empty snapshot yields
exactly the single peer-index record, and the snapshot whose only route
references the absent peer index 5 is rejected. -/
theorem build_table_dump_v2_shape_witness :
    (∃ t recs, build_peer_index_table emptySnapshot = .ok t
       ∧ build_table_dump_v2 attrsOk emptySnapshot
           = .ok (encode_mrt_message (toU32 emptySnapshot.timestamp)
               ENTRY_TABLE_DUMP_V2 SUBTYPE_PEER_INDEX_TABLE
               (.peerIndexTable t) :: recs)
       ∧ recs.length = emptySnapshot.routes.length
       ∧ ∀ rec ∈ recs, rec.entry_type = ENTRY_TABLE_DUMP_V2
           ∧ rec.subtype = SUBTYPE_RIB_IPV4_UNICAST) ∧
    (build_table_dump_v2 attrsOk badRouteSnapshot).isOk = false :=
  ⟨(build_table_dump_v2_shape attrsOk emptySnapshot).1 (by decide)
      (by intro r hr; cases hr),
   (build_table_dump_v2_shape attrsOk badRouteSnapshot).2
      ⟨badRouteSnapshot.routes.head (by decide), by decide, by decide⟩⟩

theorem ensure_updates_writer_no_rotate (cfg : ArchiveConfig) (now : Int)
    (w : SegmentWriter)
    (h : w.start_ts = aligned_epoch now cfg.updates_interval_secs) :
    ensure_updates_writer cfg now (some w) = (.ok (), some w) := by
  unfold ensure_updates_writer
  simp [h]

/-- Claim C5: `encode_update` parses the input's `bgp_message` first with
4-byte ASNs and retries with 2-byte ASNs exactly when the first parse
fails (second and third conjuncts); it returns an encoded record exactly
when this parse-with-fallback yields a BGP UPDATE, and an error exactly
when both parses fail or the parsed message is not an UPDATE (first
conjunct). -/
theorem encode_update_parse_contract (parse : ParseOracle)
    (input : UpdateRecordInput) :
    ((encode_bgp4mp_message_as4 parse input).isOk = true ↔
      ∃ payload, parse_with_fallback parse input.bgp_message
        = .ok (.update payload)) ∧
    (∀ m, parse .bits32 input.bgp_message = .ok m →
      parse_with_fallback parse input.bgp_message = .ok m) ∧
    (∀ e, parse .bits32 input.bgp_message = .error e →
      parse_with_fallback parse input.bgp_message
        = parse .bits16 input.bgp_message) := by
  refine ⟨?_, ?_, ?_⟩
  · unfold encode_bgp4mp_message_as4 parse_update_message
    cases hf : parse_with_fallback parse input.bgp_message with
    | error e =>
      constructor
      · intro h
        cases h
      · rintro ⟨payload, hp⟩
        cases hp
    | ok m =>
      cases m with
      | update payload =>
        constructor
        · intro _
          exact ⟨payload, rfl⟩
        · intro _
          rfl
      | openMsg =>
        constructor
        · intro h
          cases h
        · rintro ⟨payload, hp⟩
          cases hp
      | notification =>
        constructor
        · intro h
          cases h
        · rintro ⟨payload, hp⟩
          cases hp
      | keepalive =>
        constructor
        · intro h
          cases h
        · rintro ⟨payload, hp⟩
          cases hp
  · intro m hm
    unfold parse_with_fallback
    rw [hm]
  · intro e he
    unfold parse_with_fallback
    rw [he]

/-- Witness for `encode_update_parse_contract` under an oracle that
parses everything as an UPDATE. -/
theorem encode_update_parse_contract_witness :
    ((encode_bgp4mp_message_as4 parseAlwaysUpdate inputNextBucket).isOk = true
      ↔ ∃ payload, parse_with_fallback parseAlwaysUpdate
          inputNextBucket.bgp_message = .ok (.update payload)) ∧
    (∀ m, parseAlwaysUpdate .bits32 inputNextBucket.bgp_message = .ok m →
      parse_with_fallback parseAlwaysUpdate inputNextBucket.bgp_message
        = .ok m) ∧
    (∀ e, parseAlwaysUpdate .bits32 inputNextBucket.bgp_message = .error e →
      parse_with_fallback parseAlwaysUpdate inputNextBucket.bgp_message
        = parseAlwaysUpdate .bits16 inputNextBucket.bgp_message) :=
  encode_update_parse_contract parseAlwaysUpdate inputNextBucket

set_option maxRecDepth 100000 in
/-- Claim C6, counterexample: an `ingest_update` call whose message fails
to encode still rotates the open segment when the update's timestamp lies
in a new bucket, because `ensure_updates_writer` runs before encoding.
Here the call returns an error, yet the open writer's `record_count` goes
from 1 (the old bucket's writer) to 0 (a fresh writer), contradicting the
claim that the count is unchanged across every failed call. -/
theorem ingest_update_rotates_before_encode :
    (ingest_update routeviewsCfg parseAlwaysOpen mrtBytesTrivial (.ok ())
        (some writerBucket0) inputNextBucket).1.isOk = false ∧
    (some writerBucket0).map SegmentWriter.record_count = some 1 ∧
    ((ingest_update routeviewsCfg parseAlwaysOpen mrtBytesTrivial (.ok ())
        (some writerBucket0) inputNextBucket).2).map
      SegmentWriter.record_count = some 0 := by
  exact ⟨rfl, rfl, rfl⟩

/-- Claim C6, amended: when `ingest_update` is called (archive enabled)
with a `bgp_message` that does not encode as an UPDATE, the call returns
an error and no `write_record` occurs: the writer cell is exactly what
`ensure_updates_writer` left, and in particular when the update's
timestamp falls inside the open writer's bucket the writer — and so its
`record_count` — is completely unchanged.  (When the timestamp falls in a
new bucket, `ensure_updates_writer` has already rotated: the old writer
is finalized and a fresh writer with `record_count = 0` is open.) -/
theorem ingest_update_encode_error_no_write (cfg : ArchiveConfig)
    (parse : ParseOracle) (mrtBytes : MrtRecord → List Nat)
    (io : Except String Unit) (cell : Option SegmentWriter)
    (update : UpdateRecordInput)
    (henc : (encode_bgp4mp_message_as4 parse update).isOk = false)
    (hen : cfg.enabled = true) :
    (ingest_update cfg parse mrtBytes io cell update).1.isOk = false ∧
    (ingest_update cfg parse mrtBytes io cell update).2
      = (ensure_updates_writer cfg update.timestamp cell).2 ∧
    (∀ w, cell = some w →
      w.start_ts = aligned_epoch update.timestamp cfg.updates_interval_secs →
      (ingest_update cfg parse mrtBytes io cell update).2 = some w) := by
  unfold ingest_update
  rw [if_neg (by simp [hen])]
  rcases hens : ensure_updates_writer cfg update.timestamp cell with ⟨r1, cell1⟩
  cases r1 with
  | error e =>
    refine ⟨rfl, rfl, ?_⟩
    intro w hw hst
    subst hw
    rw [ensure_updates_writer_no_rotate cfg update.timestamp w hst] at hens
    injection hens with h1 h2
    exact h2.symm
  | ok u =>
    cases henc2 : encode_bgp4mp_message_as4 parse update with
    | error e2 =>
      refine ⟨rfl, rfl, ?_⟩
      intro w hw hst
      subst hw
      rw [ensure_updates_writer_no_rotate cfg update.timestamp w hst] at hens
      injection hens with h1 h2
      exact h2.symm
    | ok rec =>
      rw [henc2] at henc
      cases henc

/-- Witness for `ingest_update_encode_error_no_write`: a same-bucket
ingest whose message parses as OPEN errors out and leaves the writer (and
its `record_count`) untouched. -/
theorem ingest_update_encode_error_no_write_witness :
    (ingest_update routeviewsCfg parseAlwaysOpen mrtBytesTrivial (.ok ())
        (some writerBucket0)
        { inputNextBucket with timestamp := 10 }).1.isOk = false ∧
    (ingest_update routeviewsCfg parseAlwaysOpen mrtBytesTrivial (.ok ())
        (some writerBucket0) { inputNextBucket with timestamp := 10 }).2
      = (ensure_updates_writer routeviewsCfg
          ({ inputNextBucket with timestamp := 10 } :
            UpdateRecordInput).timestamp (some writerBucket0)).2 ∧
    (∀ w, some writerBucket0 = some w →
      w.start_ts = aligned_epoch
        ({ inputNextBucket with timestamp := 10 } :
          UpdateRecordInput).timestamp routeviewsCfg.updates_interval_secs →
      (ingest_update routeviewsCfg parseAlwaysOpen mrtBytesTrivial (.ok ())
          (some writerBucket0)
          { inputNextBucket with timestamp := 10 }).2 = some w) :=
  ingest_update_encode_error_no_write routeviewsCfg parseAlwaysOpen
    mrtBytesTrivial (.ok ()) (some writerBucket0)
    { inputNextBucket with timestamp := 10 } rfl rfl

/-- Claim C10: `snapshot_now` substitutes the service's own collector BGP
id for the input's `collector_bgp_id` exactly when the input's value is
the unspecified address `0.0.0.0`, and any other value is passed through
unchanged into the peer-index table it encodes. -/
theorem snapshot_now_collector_bgp_id_substitution (svc : Ipv4)
    (input : RibSnapshotInput) (t : PeerIndexTable)
    (h : build_peer_index_table (snapshot_now_effective_input svc input)
      = .ok t) :
    t.collector_bgp_id
      = if input.collector_bgp_id = 0 then svc
        else input.collector_bgp_id := by
  unfold build_peer_index_table at h
  by_cases hlen :
      (snapshot_now_effective_input svc input).peers.length > 65535
  · rw [if_pos hlen] at h
    cases h
  · rw [if_neg hlen] at h
    injection h with h
    subst h
    show (snapshot_now_effective_input svc input).collector_bgp_id = _
    unfold snapshot_now_effective_input
    by_cases hc : input.collector_bgp_id = 0
    · rw [if_pos hc, if_pos hc]
    · rw [if_neg hc, if_neg hc]

/-- Witness for `snapshot_now_collector_bgp_id_substitution`: an input
with `collector_bgp_id = 0.0.0.0` yields a peer-index table carrying the
service's id (192.0.2.1 = 3221225985). -/
theorem snapshot_now_collector_bgp_id_substitution_witness :
    ({ collector_bgp_id := 3221225985, view_name := "main",
       id_peer_map := [] } : PeerIndexTable).collector_bgp_id
      = if zeroCollectorSnapshot.collector_bgp_id = 0 then 3221225985
        else zeroCollectorSnapshot.collector_bgp_id :=
  snapshot_now_collector_bgp_id_substitution 3221225985
    zeroCollectorSnapshot _ rfl

end Focl
